import Mathlib

/-!
# Verification of the RT-4BC core against its specification

Shallow embedding of the core computational components of the RT-4BC
4-band camera application, translated from the Python sources:

* `Core/Core_RasterCalculation.py` — raster expression validator and store
* `Lib/Lib_RasterCalculation.py`  — the UI paths that validate/evaluate
* `Core/Core_ReflectanceCalculation.py` — per-band reflectance computation
* `Core/Core_Classifier.py` — model loading state machine
* `Core/Core_GeoTransform.py` — homography estimation and INI persistence
* `Core/Core_ReferenceRadianceEstimation.py` — reference radiance estimation
* `Core/Core_CameraView.py` — frame ingestion thread

Numeric image data is modelled over `ℚ` (Python floats; results here are
exact rational identities about the formulas the code computes).
External library calls (`cv2.findHomography`, `cv2.imdecode`, `joblib.load`)
are modelled as abstract function parameters (oracles), since only the
surrounding control flow is under verification.
-/

namespace RT4BC

/-! ## Core_RasterCalculation.validate_expression (lines 17-37)

Python:
```
if not expression.strip(): return False, "Expression is empty"
allowed = re.compile(r"^[\w\s\+\-\*\/\%\(\)\.]+$")
if not allowed.match(expression): return False, "Expression contains invalid characters"
if not any(band in expression for band in ["R1", "R2", "R3", "R4"]):
    return False, "Expression must reference at least one band (R1-R4)"
return True, ""
```
`\w` is modelled as ASCII alphanumeric or underscore, `\s` as whitespace
(`Char.isWhitespace`); all inputs relevant to the claims are ASCII.
Matching the anchored character-class regex is equivalent to every
character of the string belonging to the class.
-/

/-- One character of the regex allow-set `[\w\s\+\-\*\/\%\(\)\.]`. -/
def isAllowedChar (c : Char) : Bool :=
  c.isAlphanum || c = '_' || c.isWhitespace ||
  c = '+' || c = '-' || c = '*' || c = '/' || c = '%' || c = '(' || c = ')' || c = '.'

/-- `needle` occurs at the start of `hay` (Python `str.startswith`). -/
def leadsWith : List Char → List Char → Bool
  | [], _ => true
  | _ :: _, [] => false
  | a :: as, b :: bs => a = b && leadsWith as bs

/-- `needle` occurs as a contiguous substring of `hay` (Python `in`). -/
def hasSub (needle : List Char) : List Char → Bool
  | [] => leadsWith needle []
  | c :: rest => leadsWith needle (c :: rest) || hasSub needle rest

/-- `CoreRasterCalculator.validate_expression`: returns `(is_valid, error_message)`. -/
def validate_expression (expression : String) : Bool × String :=
  if expression.data.all Char.isWhitespace then
    (false, "Expression is empty")
  else if ! expression.data.all isAllowedChar then
    (false, "Expression contains invalid characters")
  else if ! (["R1", "R2", "R3", "R4"].any fun band => hasSub band.data expression.data) then
    (false, "Expression must reference at least one band (R1-R4)")
  else
    (true, "")

/-- Characters of a substring occurrence all occur in the haystack. -/
theorem mem_of_leadsWith {needle hay : List Char} (h : leadsWith needle hay = true) :
    ∀ c ∈ needle, c ∈ hay := by
  induction needle generalizing hay with
  | nil => intro c hc; cases hc
  | cons a as ih =>
    cases hay with
    | nil => simp [leadsWith] at h
    | cons b bs =>
      simp only [leadsWith, Bool.and_eq_true, decide_eq_true_eq] at h
      intro c hc
      rcases List.mem_cons.mp hc with rfl | hc
      · exact h.1 ▸ List.mem_cons_self _ _
      · exact List.mem_cons_of_mem _ (ih h.2 c hc)

theorem mem_of_hasSub {needle hay : List Char} (h : hasSub needle hay = true) :
    ∀ c ∈ needle, c ∈ hay := by
  induction hay with
  | nil =>
    cases needle with
    | nil => intro c hc; cases hc
    | cons a as => simp [hasSub, leadsWith] at h
  | cons b bs ih =>
    simp only [hasSub, Bool.or_eq_true] at h
    rcases h with h | h
    · exact mem_of_leadsWith h
    · exact fun c hc => List.mem_cons_of_mem _ (ih h c hc)

/-- **C7** — The claim states that the validator rejects `"R1 ** 2"`.
In fact every character of `"R1 ** 2"` lies in the allow-set (`*` is an
allowed operator character, so `**` is two allowed characters) and the
string contains `R1`, so `validate_expression` accepts it: the claim is
false on the code. -/
theorem C7_counterexample : ¬ (validate_expression "R1 ** 2").1 = false := by decide

/-- **C7 (amended)** — The raster expression validator accepts the
expression `"R1 ** 2"` as valid (empty error message): the character
class admits `*`, so the exponentiation spelling `**` passes, and the
string references band `R1`. -/
theorem C7_validator_accepts_power : validate_expression "R1 ** 2" = (true, "") := by
  decide

/-- **C10** — The validator's character check constrains only the character
set: any string all of whose characters are in the allow-set (word
characters, whitespace, `+ - * / % ( ) .`) and which contains one of the
tokens `R1`–`R4` is accepted as valid.  In particular `"R1 import os"` is
accepted, and the bare string `"import os"` is rejected with the
missing-band-reference message, not the invalid-characters message. -/
theorem C10_charset_only :
    (∀ s : String, s.data.all isAllowedChar = true →
      (∃ b ∈ (["R1", "R2", "R3", "R4"] : List String), hasSub b.data s.data = true) →
      validate_expression s = (true, "")) ∧
    validate_expression "R1 import os" = (true, "") ∧
    validate_expression "import os" =
      (false, "Expression must reference at least one band (R1-R4)") := by
  refine ⟨?_, by decide, by decide⟩
  intro s hall hex
  obtain ⟨b, hb, hsub⟩ := hex
  have hRb : 'R' ∈ b.data := by
    simp only [List.mem_cons, List.not_mem_nil, or_false] at hb
    rcases hb with rfl | rfl | rfl | rfl <;> decide
  have hR : 'R' ∈ s.data := mem_of_hasSub hsub _ hRb
  have hws : s.data.all Char.isWhitespace = false :=
    List.all_eq_false.mpr ⟨'R', hR, by decide⟩
  have hany : (["R1", "R2", "R3", "R4"].any fun band => hasSub band.data s.data) = true :=
    List.any_eq_true.mpr ⟨b, hb, hsub⟩
  simp [validate_expression, hws, hall, hany]

/-- Witness for `C10_charset_only` at the concrete input `"R1 + x"`. -/
theorem C10_charset_only_witness : validate_expression "R1 + x" = (true, "") :=
  C10_charset_only.1 "R1 + x" (by decide) ⟨"R1", by decide, by decide⟩

/-! ## Core_RasterCalculation raster store (lines 11-15, 77-99)

`add_calculated_raster` increments `raster_counter` and stores under the
name `f"Raster {self.raster_counter}"`; `clear_all_rasters` clears both
dicts and resets `raster_counter = 0`.  The decimal rendering of the
f-string is modelled by `natStr`. -/

/-- Decimal digit character (`'0'` + d). -/
def digitChar (d : ℕ) : Char := Char.ofNat (48 + d)

/-- Decimal digits of `n`, most significant first; `fuel ≥ n` suffices. -/
def natStrAux : ℕ → ℕ → List Char
  | 0, _ => []
  | fuel + 1, n => if n = 0 then [] else natStrAux fuel (n / 10) ++ [digitChar (n % 10)]

/-- Decimal rendering of a natural number (Python `f"{n}"`). -/
def natStr (n : ℕ) : String := if n = 0 then "0" else String.mk (natStrAux n n)

/-- The auto-generated raster name `f"Raster {n}"`. -/
def rasterName (n : ℕ) : String := String.mk ("Raster ".data ++ (natStr n).data)

/-- Decimal re-parsing step used to invert `natStr`. -/
def parseStep (acc : ℕ) (c : Char) : ℕ := 10 * acc + (c.toNat - 48)

theorem digitChar_val : ∀ d, d < 10 → (digitChar d).toNat - 48 = d := by decide

theorem parseFold_natStrAux : ∀ fuel n acc, n ≤ fuel →
    List.foldl parseStep acc (natStrAux fuel n) =
      acc * 10 ^ (natStrAux fuel n).length + n := by
  intro fuel
  induction fuel with
  | zero =>
    intro n acc hn
    interval_cases n
    simp [natStrAux]
  | succ fuel ih =>
    intro n acc hn
    by_cases h0 : n = 0
    · simp [natStrAux, h0]
    · have hdiv : n / 10 ≤ fuel := by
        have : n / 10 < n := Nat.div_lt_self (Nat.pos_of_ne_zero h0) (by norm_num)
        omega
      have hrec := ih (n / 10) acc hdiv
      simp only [natStrAux, h0, if_false, List.foldl_append, List.foldl_cons,
        List.foldl_nil, List.length_append, List.length_singleton, hrec, parseStep]
      rw [digitChar_val (n % 10) (Nat.mod_lt n (by norm_num))]
      have : 10 * (n / 10) + n % 10 = n := Nat.div_add_mod n 10
      ring_nf
      omega

/-- `natStr` is inverted by decimal re-parsing. -/
theorem parseFold_natStr (n : ℕ) : List.foldl parseStep 0 (natStr n).data = n := by
  by_cases h0 : n = 0
  · subst h0; decide
  · simp only [natStr, h0, if_false]
    have := parseFold_natStrAux n n 0 le_rfl
    simpa using this

theorem natStr_injective : Function.Injective natStr := by
  intro a b h
  have := congrArg (fun s : String => List.foldl parseStep 0 s.data) h
  simpa [parseFold_natStr] using this

theorem rasterName_injective : Function.Injective rasterName := by
  intro a b h
  have hdata : "Raster ".data ++ (natStr a).data = "Raster ".data ++ (natStr b).data :=
    congrArg String.data h
  have hsuffix := List.append_cancel_left hdata
  apply natStr_injective
  cases hstr_a : natStr a
  cases hstr_b : natStr b
  simp_all

/-- State of `CoreRasterCalculator` relevant to naming: the counter and
the insertion-ordered keys of `calculated_rasters`. -/
structure RCState where
  counter : ℕ
  names : List String
deriving DecidableEq

/-- Python dict key insertion: an existing key keeps its position, a new
key is appended. -/
def assocKeyInsert (name : String) (names : List String) : List String :=
  if name ∈ names then names else names ++ [name]

/-- The store operations reachable from the UI: `add_calculated_raster`
and `clear_all_rasters` (there is no per-raster delete in the code). -/
inductive RCOp
  | add
  | clear
deriving DecidableEq

/-- One store operation; returns the new state and the generated name
(for `add`). -/
def rcStep (st : RCState) : RCOp → RCState × Option String
  | .add =>
    let c := st.counter + 1
    (⟨c, assocKeyInsert (rasterName c) st.names⟩, some (rasterName c))
  | .clear => (⟨0, []⟩, none)

/-- Run a sequence of store operations, collecting the generated names. -/
def rcRun (st : RCState) : List RCOp → RCState × List String
  | [] => (st, [])
  | op :: rest =>
    let s1 := rcStep st op
    let s2 := rcRun s1.1 rest
    (s2.1, s1.2.toList ++ s2.2)

/-- **C6** — The claim states the counter only increments across every
sequence of add and clear operations, so a generated name is never
reused.  In fact `clear_all_rasters` resets `raster_counter` to 0: the
sequence add, clear, add generates the name `"Raster 1"` twice, and the
counter after the clear (0) is below its earlier value (1). -/
theorem C6_counterexample :
    (rcRun ⟨0, []⟩ [RCOp.add, RCOp.clear, RCOp.add]).2 = ["Raster 1", "Raster 1"] ∧
    ¬ (rcRun ⟨0, []⟩ [RCOp.add, RCOp.clear, RCOp.add]).2.Nodup ∧
    (rcStep (rcRun ⟨0, []⟩ [RCOp.add]).1 RCOp.clear).1.counter <
      (rcRun ⟨0, []⟩ [RCOp.add]).1.counter := by
  refine ⟨by decide, ?_, by decide⟩
  intro hnd
  have : (rcRun ⟨0, []⟩ [RCOp.add, RCOp.clear, RCOp.add]).2 = ["Raster 1", "Raster 1"] := by
    decide
  rw [this] at hnd
  simp at hnd

theorem rcRun_clear_free : ∀ (ops : List RCOp) (c0 : ℕ) (ns : List String),
    RCOp.clear ∉ ops →
    (rcRun ⟨c0, ns⟩ ops).2 =
      (List.range ops.length).map (fun j => rasterName (c0 + j + 1)) ∧
    (rcRun ⟨c0, ns⟩ ops).1.counter = c0 + ops.length := by
  intro ops
  induction ops with
  | nil => intro c0 ns _; simp [rcRun]
  | cons op rest ih =>
    intro c0 ns hcl
    have hop : op = RCOp.add := by
      cases op
      · rfl
      · exact absurd (List.mem_cons_self _ _) hcl
    subst hop
    have hrest : RCOp.clear ∉ rest := fun h => hcl (List.mem_cons_of_mem _ h)
    have hih := ih (c0 + 1) (assocKeyInsert (rasterName (c0 + 1)) ns) hrest
    refine ⟨?_, ?_⟩
    · simp only [rcRun, rcStep, Option.toList_some, List.singleton_append, hih.1,
        List.length_cons, List.range_succ_eq_map, List.map_cons, List.map_map]
      refine congrArg₂ _ (congrArg rasterName (by omega)) ?_
      refine List.map_congr_left fun j _ => ?_
      simp only [Function.comp_apply]
      exact congrArg rasterName (by omega)
    · simp only [rcRun, rcStep, hih.2, List.length_cons]
      omega

/-- **C6 (amended)** — Between clears the counter only increments: for
every clear-free sequence of adds, the generated names are
`Raster (c0+1), Raster (c0+2), …` in order, pairwise distinct — no two
distinct stored rasters receive the same generated name.
`clear_all_rasters`, however, resets the counter to 0 and empties the
store, so names are reused after a clear. -/
theorem C6_names_nodup_between_clears :
    (∀ (ops : List RCOp) (c0 : ℕ) (ns : List String), RCOp.clear ∉ ops →
      (rcRun ⟨c0, ns⟩ ops).2 =
        (List.range ops.length).map (fun j => rasterName (c0 + j + 1)) ∧
      (rcRun ⟨c0, ns⟩ ops).2.Nodup ∧
      (rcRun ⟨c0, ns⟩ ops).1.counter = c0 + ops.length) ∧
    (∀ st, rcStep st RCOp.clear = (⟨0, []⟩, none)) := by
  refine ⟨fun ops c0 ns hcl => ?_, fun st => rfl⟩
  obtain ⟨hgen, hcnt⟩ := rcRun_clear_free ops c0 ns hcl
  refine ⟨hgen, ?_, hcnt⟩
  rw [hgen]
  refine List.Nodup.map ?_ (List.nodup_range _)
  intro x y hxy
  have := rasterName_injective hxy
  omega

/-- Witness for `C6_names_nodup_between_clears`: two adds from a fresh
store generate the distinct names Raster 1, Raster 2. -/
theorem C6_names_nodup_between_clears_witness :
    (rcRun ⟨0, []⟩ [RCOp.add, RCOp.add]).2 =
      (List.range 2).map (fun j => rasterName (0 + j + 1)) ∧
    (rcRun ⟨0, []⟩ [RCOp.add, RCOp.add]).2.Nodup ∧
    (rcRun ⟨0, []⟩ [RCOp.add, RCOp.add]).1.counter = 0 + 2 := by
  have h := C6_names_nodup_between_clears.1 [RCOp.add, RCOp.add] 0 [] (by decide)
  simpa using h

/-! ## Lib_RasterCalculation program paths (lines 266-481)

The raster-expression call sites in `RasterCalculationTab`:

* `check_raster_expression` (267): validate only;
* `apply_raster_expression` (302): validate, return on failure, return if
  no reflectance tiles, evaluate, store on success;
* `ensure_overlay_raster` (463): if tiles exist and no "Overlay" raster,
  evaluate the fixed overlay expression directly (NO validation call) and
  store it on success;
* `update_all_rasters` (427): if tiles exist, re-evaluate every stored
  expression (NO validation call);
* `reset_raster_expression` (281): `clear_all_rasters`;
* `update_reflectance_display` (144): on success stores tiles, then calls
  `ensure_overlay_raster` then `update_all_rasters`.

Evaluation outcomes (`evaluate_expression` returning a result or `None`)
and frame availability are oracle booleans; the observable under
verification is the sequence of validator/evaluator calls. -/

/-- The fixed auto-overlay expression from `ensure_overlay_raster`. -/
def overlayExpr : String := "R1//4 + R2//4 + R3//4 + R4//4"

/-- Observable calls into `CoreRasterCalculator` on a path. -/
inductive REv
  | validate (s : String) (ok : Bool)
  | eval (s : String)
deriving DecidableEq

/-- State of `RasterCalculationTab` relevant to expression handling:
stored (name, expression) pairs in dict insertion order, the name
counter, and whether `current_reflectance_tiles` is set. -/
structure TabState where
  exprs : List (String × String)
  counter : ℕ
  tilesPresent : Bool
deriving DecidableEq

/-- Python dict assignment: overwrite in place or append a new key. -/
def assocSet (key val : String) (l : List (String × String)) : List (String × String) :=
  if (l.lookup key).isSome then
    l.map fun p => if p.1 = key then (key, val) else p
  else l ++ [(key, val)]

/-- `apply_raster_expression` with the evaluator outcome `evalOk`. -/
def applyStep (expr : String) (evalOk : Bool) (st : TabState) : List REv × TabState :=
  let v := validate_expression expr
  if v.1 = false then ([REv.validate expr false], st)
  else if st.tilesPresent = false then ([REv.validate expr true], st)
  else if evalOk then
    ([REv.validate expr true, REv.eval expr],
     { st with counter := st.counter + 1,
               exprs := assocSet (rasterName (st.counter + 1)) expr st.exprs })
  else ([REv.validate expr true, REv.eval expr], st)

/-- `check_raster_expression`: validation only, state unchanged. -/
def checkStep (expr : String) (st : TabState) : List REv × TabState :=
  ([REv.validate expr (validate_expression expr).1], st)

/-- `ensure_overlay_raster`: evaluates `overlayExpr` without validating. -/
def ensureOverlayStep (evalOk : Bool) (st : TabState) : List REv × TabState :=
  if st.tilesPresent = false then ([], st)
  else if (st.exprs.lookup "Overlay").isSome then ([], st)
  else if evalOk then
    ([REv.eval overlayExpr], { st with exprs := assocSet "Overlay" overlayExpr st.exprs })
  else ([REv.eval overlayExpr], st)

/-- `update_all_rasters`: re-evaluates every stored expression (skipping
empty ones, Python `if not expression: continue`) without validating. -/
def updateAllStep (st : TabState) : List REv × TabState :=
  if st.tilesPresent = false then ([], st)
  else (st.exprs.filterMap fun ne => if ne.2 = "" then none else some (REv.eval ne.2), st)

/-- `update_reflectance_display`: when a frame is available and
reflectance succeeds (`frameOk`), store tiles then auto-create the
overlay and re-evaluate all rasters. -/
def refreshStep (frameOk ovOk : Bool) (st : TabState) : List REv × TabState :=
  if frameOk = false then ([], st)
  else
    let st1 := { st with tilesPresent := true }
    let p1 := ensureOverlayStep ovOk st1
    let p2 := updateAllStep p1.2
    (p1.1 ++ p2.1, p2.2)

/-- `reset_raster_expression` (confirmed): `clear_all_rasters`. -/
def resetStep (st : TabState) : List REv × TabState :=
  ([], { st with exprs := [], counter := 0 })

/-- The operations of the tab that touch raster expressions. -/
inductive LibOp
  | applyExpr (expr : String) (evalOk : Bool)
  | checkExpr (expr : String)
  | refresh (frameOk ovOk : Bool)
  | reset

/-- Dispatch one tab operation. -/
def libStep (st : TabState) : LibOp → List REv × TabState
  | .applyExpr e ok => applyStep e ok st
  | .checkExpr e => checkStep e st
  | .refresh f ov => refreshStep f ov st
  | .reset => resetStep st

/-- Initial tab state: no rasters, counter 0, no reflectance tiles. -/
def initTab : TabState := ⟨[], 0, false⟩

/-- Run a sequence of tab operations, concatenating the call traces. -/
def libRun (st : TabState) : List LibOp → List REv × TabState
  | [] => ([], st)
  | op :: rest =>
    let p := libStep st op
    let q := libRun p.2 rest
    (p.1 ++ q.1, q.2)

/-- The claim's property as a trace check: every `eval s` must be
preceded in the trace by a `validate s` call that accepted `s`. -/
def evalsValidated (acc : List String) : List REv → Bool
  | [] => true
  | REv.validate s true :: r => evalsValidated (s :: acc) r
  | REv.validate _ false :: r => evalsValidated acc r
  | REv.eval s :: r => acc.contains s && evalsValidated acc r

/-- **C1** — The claim states every path that evaluates a raster
expression first runs the validator on that exact text.  In fact the
periodic path `update_reflectance_display` → `ensure_overlay_raster` /
`update_all_rasters` calls `evaluate_expression` on the overlay
expression with no `validate_expression` call anywhere in the run. -/
theorem C1_counterexample :
    (libRun initTab [LibOp.refresh true true]).1 =
      [REv.eval overlayExpr, REv.eval overlayExpr] ∧
    evalsValidated [] (libRun initTab [LibOp.refresh true true]).1 = false := by
  decide

/-- Invariant: every stored raster expression is accepted by the validator. -/
abbrev goodState (st : TabState) : Prop :=
  ∀ p ∈ st.exprs, (validate_expression p.2).1 = true

theorem overlayExpr_accepted : (validate_expression overlayExpr).1 = true := by decide

theorem assocSet_mem {key val : String} {l : List (String × String)}
    {p : String × String} (h : p ∈ assocSet key val l) : p = (key, val) ∨ p ∈ l := by
  unfold assocSet at h
  split at h
  · rcases List.mem_map.mp h with ⟨q, hq, hqe⟩
    by_cases hk : q.1 = key
    · simp only [hk, if_true] at hqe
      exact Or.inl hqe.symm
    · simp only [hk, if_false] at hqe
      exact Or.inr (hqe ▸ hq)
  · rcases List.mem_append.mp h with h | h
    · exact Or.inr h
    · exact Or.inl (List.mem_singleton.mp h)

theorem ensureOverlay_sound {st : TabState} (hg : goodState st) (ov : Bool) :
    (∀ s, REv.eval s ∈ (ensureOverlayStep ov st).1 → (validate_expression s).1 = true) ∧
    goodState (ensureOverlayStep ov st).2 := by
  unfold ensureOverlayStep
  split
  · exact ⟨fun s hs => by simp at hs, hg⟩
  · split
    · exact ⟨fun s hs => by simp at hs, hg⟩
    · split
      · refine ⟨fun s hs => ?_, fun p hp => ?_⟩
        · simp only [List.mem_singleton, REv.eval.injEq] at hs
          exact hs ▸ overlayExpr_accepted
        · rcases assocSet_mem hp with rfl | hp'
          · exact overlayExpr_accepted
          · exact hg p hp'
      · refine ⟨fun s hs => ?_, hg⟩
        simp only [List.mem_singleton, REv.eval.injEq] at hs
        exact hs ▸ overlayExpr_accepted

theorem updateAll_sound {st : TabState} (hg : goodState st) :
    (∀ s, REv.eval s ∈ (updateAllStep st).1 → (validate_expression s).1 = true) ∧
    (updateAllStep st).2 = st := by
  unfold updateAllStep
  split
  · exact ⟨fun s hs => by simp at hs, rfl⟩
  · refine ⟨fun s hs => ?_, rfl⟩
    simp only [List.mem_filterMap] at hs
    obtain ⟨ne, hne, heq⟩ := hs
    by_cases he : ne.2 = ""
    · simp [he] at heq
    · simp only [he, if_false, Option.some.injEq, REv.eval.injEq] at heq
      exact heq ▸ hg ne hne

theorem libStep_sound {st : TabState} (hg : goodState st) (op : LibOp) :
    (∀ s, REv.eval s ∈ (libStep st op).1 → (validate_expression s).1 = true) ∧
    goodState (libStep st op).2 := by
  cases op with
  | applyExpr e ok =>
    by_cases hv : (validate_expression e).1 = false
    · exact ⟨fun s hs => by simp [libStep, applyStep, hv] at hs,
        by simpa [libStep, applyStep, hv] using hg⟩
    · have hv' : (validate_expression e).1 = true := by
        cases h : (validate_expression e).1
        · exact absurd h hv
        · rfl
      by_cases ht : st.tilesPresent = false
      · exact ⟨fun s hs => by simp [libStep, applyStep, hv, ht] at hs,
          by simpa [libStep, applyStep, hv, ht] using hg⟩
      · by_cases hok : ok = true
        · refine ⟨fun s hs => ?_, fun p hp => ?_⟩
          · simp only [libStep, applyStep, hv, if_false, ht, hok, if_true,
              List.mem_cons, List.mem_singleton, REv.eval.injEq,
              reduceCtorEq, false_or] at hs
            rcases hs with rfl | hs
            · exact hv'
            · simp at hs
          · simp only [libStep, applyStep, hv, if_false, ht, hok, if_true] at hp
            rcases assocSet_mem hp with rfl | hp'
            · exact hv'
            · exact hg p hp'
        · refine ⟨fun s hs => ?_, by simpa [libStep, applyStep, hv, ht, hok] using hg⟩
          simp only [libStep, applyStep, hv, if_false, ht, hok, List.mem_cons,
            List.mem_singleton, REv.eval.injEq, reduceCtorEq, false_or] at hs
          rcases hs with rfl | hs
          · exact hv'
          · simp at hs
  | checkExpr e =>
    exact ⟨fun s hs => by simp [libStep, checkStep] at hs, hg⟩
  | refresh f ov =>
    by_cases hf : f = false
    · exact ⟨fun s hs => by simp [libStep, refreshStep, hf] at hs,
        by simpa [libStep, refreshStep, hf] using hg⟩
    · have hg1 : goodState { st with tilesPresent := true } := hg
      obtain ⟨h1, hgo⟩ := ensureOverlay_sound hg1 ov
      obtain ⟨h2, hst⟩ := updateAll_sound hgo
      refine ⟨fun s hs => ?_, ?_⟩
      · have hs' : REv.eval s ∈
            (ensureOverlayStep ov { st with tilesPresent := true }).1 ++
            (updateAllStep (ensureOverlayStep ov { st with tilesPresent := true }).2).1 := by
          simpa [libStep, refreshStep, hf] using hs
        rcases List.mem_append.mp hs' with h | h
        · exact h1 s h
        · exact h2 s h
      · have : (libStep st (LibOp.refresh f ov)).2 =
            (updateAllStep (ensureOverlayStep ov { st with tilesPresent := true }).2).2 := by
          simp [libStep, refreshStep, hf]
        rw [this, hst]
        exact hgo
  | reset =>
    exact ⟨fun s hs => by simp [libStep, resetStep] at hs,
      fun p hp => by simp [libStep, resetStep] at hp⟩

theorem libRun_sound : ∀ (ops : List LibOp) (st : TabState), goodState st →
    (∀ s, REv.eval s ∈ (libRun st ops).1 → (validate_expression s).1 = true) ∧
    goodState (libRun st ops).2 := by
  intro ops
  induction ops with
  | nil => exact fun st hg => ⟨fun s hs => by simp [libRun] at hs, hg⟩
  | cons op rest ih =>
    intro st hg
    obtain ⟨h1, hg1⟩ := libStep_sound hg op
    obtain ⟨h2, hg2⟩ := ih _ hg1
    refine ⟨fun s hs => ?_, hg2⟩
    have hs' : REv.eval s ∈ (libStep st op).1 ++ (libRun (libStep st op).2 rest).1 := hs
    rcases List.mem_append.mp hs' with h | h
    · exact h1 s h
    · exact h2 s h

/-- **C1 (amended)** — Every expression text passed to
`evaluate_expression` on any program path from session start is text the
validator accepts: user expressions are validated in
`apply_raster_expression` before evaluation and storage, and the
automatic paths (`ensure_overlay_raster`, `update_all_rasters`) — which
do NOT invoke the validator — only ever evaluate the fixed overlay
expression (which the validator accepts) or previously stored,
validator-accepted text. -/
theorem C1_all_evaluated_text_accepted :
    ∀ (ops : List LibOp) (s : String),
      REv.eval s ∈ (libRun initTab ops).1 → (validate_expression s).1 = true :=
  fun ops s hs =>
    (libRun_sound ops initTab (fun p hp => absurd hp (List.not_mem_nil p))).1 s hs

/-- Witness for `C1_all_evaluated_text_accepted`: the overlay expression
evaluated by the automatic refresh path is validator-accepted. -/
theorem C1_all_evaluated_text_accepted_witness :
    (validate_expression overlayExpr).1 = true :=
  C1_all_evaluated_text_accepted [LibOp.refresh true true] overlayExpr (by decide)

/-! ## Core_ReflectanceCalculation.calculate_reflectance (lines 17-87)

Per band `i` in order 0..3: abort with `None` if the background tile is
missing; slice the camera tile `frame[:, i*640:(i+1)*640]`; look up the
exposure ms from the clamped slider level (default 1.0 when the slider
list is short); parse the reference-radiance entry (parse failure gives
0.0); abort with `None` if exposure or radiance is 0; otherwise append
`(cam - bg) / exp_ms / ref_rad`.  Pixel values are modelled in ℚ. -/

/-- Per-band width (`FRAME_W = 640`). -/
def FRAME_W : ℕ := 640

/-- A raster image as a pixel function (row, column ↦ value). -/
def Raster : Type := ℕ → ℕ → ℚ

/-- The `EXPO_MS` lookup table (Core_CameraView.py line 14). -/
def EXPO_MS : Fin 12 → ℚ := fun i =>
  ([0.04, 0.15, 0.52, 1.08, 2.24, 4.48, 9.03, 18.14, 36.04, 72.99, 146.05,
    292.21] : List ℚ).getD i.val 0

/-- Slider level clamped to [1,12] (line 56), as an index into the table. -/
def levelIndex (v : ℤ) : Fin 12 := ⟨(max 1 (min 12 v) - 1).toNat, by omega⟩

/-- Exposure ms for band `i`: table lookup at the clamped level when the
slider exists, else the fallback 1.0 (lines 54-59). -/
def expMsOf (sliders : List ℤ) (expoMs : Fin 12 → ℚ) (i : Fin 4) : ℚ :=
  match sliders.get? i.val with
  | some v => expoMs (levelIndex v)
  | none => 1

/-- Reference radiance from the entry field; parse failure is 0.0
(lines 62-65). -/
def refRadOf (entries : Fin 4 → Option ℚ) (i : Fin 4) : ℚ := (entries i).getD 0

/-- The body of the loop for one band (lines 38-85): `none` on a missing
background tile or a zero parameter, else the per-pixel reflectance. -/
def bandReflectance (frame : Raster) (bg : Fin 4 → Option Raster) (sliders : List ℤ)
    (entries : Fin 4 → Option ℚ) (expoMs : Fin 12 → ℚ) (i : Fin 4) : Option Raster :=
  match bg i with
  | none => none
  | some bgTile =>
    let expMs := expMsOf sliders expoMs i
    let refRad := refRadOf entries i
    if expMs = 0 ∨ refRad = 0 then none
    else some fun y x => (frame y (i.val * FRAME_W + x) - bgTile y x) / expMs / refRad

/-- `CoreReflectanceCalculator.calculate_reflectance`: `None` without a
frame; bands processed in order with an early `None` return, so the
result is all four tiles or nothing. -/
def calculate_reflectance (frame : Option Raster) (bg : Fin 4 → Option Raster)
    (sliders : List ℤ) (entries : Fin 4 → Option ℚ) (expoMs : Fin 12 → ℚ) :
    Option (List Raster) :=
  match frame with
  | none => none
  | some f => do
    let t0 ← bandReflectance f bg sliders entries expoMs 0
    let t1 ← bandReflectance f bg sliders entries expoMs 1
    let t2 ← bandReflectance f bg sliders entries expoMs 2
    let t3 ← bandReflectance f bg sliders entries expoMs 3
    pure [t0, t1, t2, t3]

theorem bandReflectance_some {frame : Raster} {bg : Fin 4 → Option Raster}
    {sliders : List ℤ} {entries : Fin 4 → Option ℚ} {expoMs : Fin 12 → ℚ}
    {i : Fin 4} {bgt : Raster} (hbg : bg i = some bgt)
    (hexp : expMsOf sliders expoMs i ≠ 0) (href : refRadOf entries i ≠ 0) :
    bandReflectance frame bg sliders entries expoMs i =
      some fun y x => (frame y (i.val * FRAME_W + x) - bgt y x) /
        expMsOf sliders expoMs i / refRadOf entries i := by
  unfold bandReflectance
  rw [hbg]
  simp [hexp, href]

theorem bandReflectance_none {frame : Raster} {bg : Fin 4 → Option Raster}
    {sliders : List ℤ} {entries : Fin 4 → Option ℚ} {expoMs : Fin 12 → ℚ}
    {i : Fin 4}
    (h : bg i = none ∨ expMsOf sliders expoMs i = 0 ∨ refRadOf entries i = 0) :
    bandReflectance frame bg sliders entries expoMs i = none := by
  unfold bandReflectance
  rcases h with h | h
  · rw [h]
  · cases hbg : bg i
    · rfl
    · simp only []
      rw [if_pos h]

theorem calculate_reflectance_none_of_band {f : Raster} {bg : Fin 4 → Option Raster}
    {sliders : List ℤ} {entries : Fin 4 → Option ℚ} {expoMs : Fin 12 → ℚ}
    (i : Fin 4) (h : bandReflectance f bg sliders entries expoMs i = none) :
    calculate_reflectance (some f) bg sliders entries expoMs = none := by
  fin_cases i <;>
  · unfold calculate_reflectance
    cases h0 : bandReflectance f bg sliders entries expoMs 0 <;>
      cases h1 : bandReflectance f bg sliders entries expoMs 1 <;>
        cases h2 : bandReflectance f bg sliders entries expoMs 2 <;>
          cases h3 : bandReflectance f bg sliders entries expoMs 3 <;>
            simp_all

/-- **C2** — With a frame present: if for all 4 bands the background
(dark-noise) tile exists, the exposure-derived ms value is nonzero and
the reference radiance is nonzero, `calculate_reflectance` returns
exactly the 4 tiles with every pixel equal to
`(raw − dark_noise) / exposure_ms / reference_radiance`; if any of the
three preconditions fails for any band, it returns `none` for the whole
frame — never a partial list. -/
theorem C2_reflectance_all_or_nothing :
    (∀ (f : Raster) (bg : Fin 4 → Option Raster) (bgt : Fin 4 → Raster)
       (sliders : List ℤ) (entries : Fin 4 → Option ℚ) (expoMs : Fin 12 → ℚ),
      (∀ i, bg i = some (bgt i)) →
      (∀ i, expMsOf sliders expoMs i ≠ 0) →
      (∀ i, refRadOf entries i ≠ 0) →
      calculate_reflectance (some f) bg sliders entries expoMs =
        some (List.ofFn fun i : Fin 4 => fun y x =>
          (f y (i.val * FRAME_W + x) - bgt i y x) /
            expMsOf sliders expoMs i / refRadOf entries i)) ∧
    (∀ (f : Raster) (bg : Fin 4 → Option Raster) (sliders : List ℤ)
       (entries : Fin 4 → Option ℚ) (expoMs : Fin 12 → ℚ),
      (∃ i : Fin 4, bg i = none ∨ expMsOf sliders expoMs i = 0 ∨
        refRadOf entries i = 0) →
      calculate_reflectance (some f) bg sliders entries expoMs = none) ∧
    (∀ (f : Raster) (bg : Fin 4 → Option Raster) (sliders : List ℤ)
       (entries : Fin 4 → Option ℚ) (expoMs : Fin 12 → ℚ) (l : List Raster),
      calculate_reflectance (some f) bg sliders entries expoMs = some l →
      l.length = 4) := by
  refine ⟨?_, ?_, ?_⟩
  · intro f bg bgt sliders entries expoMs hbg hexp href
    have hred : calculate_reflectance (some f) bg sliders entries expoMs =
        (bandReflectance f bg sliders entries expoMs 0).bind fun t0 =>
        (bandReflectance f bg sliders entries expoMs 1).bind fun t1 =>
        (bandReflectance f bg sliders entries expoMs 2).bind fun t2 =>
        (bandReflectance f bg sliders entries expoMs 3).bind fun t3 =>
        some [t0, t1, t2, t3] := rfl
    rw [hred, bandReflectance_some (hbg 0) (hexp 0) (href 0),
      bandReflectance_some (hbg 1) (hexp 1) (href 1),
      bandReflectance_some (hbg 2) (hexp 2) (href 2),
      bandReflectance_some (hbg 3) (hexp 3) (href 3)]
    simp only [Option.bind_some, List.ofFn_succ, List.ofFn_zero, Option.some.injEq]
    rfl
  · intro f bg sliders entries expoMs ⟨i, hi⟩
    exact calculate_reflectance_none_of_band i (bandReflectance_none hi)
  · intro f bg sliders entries expoMs l hl
    unfold calculate_reflectance at hl
    cases h0 : bandReflectance f bg sliders entries expoMs 0 <;>
      cases h1 : bandReflectance f bg sliders entries expoMs 1 <;>
        cases h2 : bandReflectance f bg sliders entries expoMs 2 <;>
          cases h3 : bandReflectance f bg sliders entries expoMs 3 <;>
            simp_all
    exact hl ▸ rfl

/-- Witness for `C2_reflectance_all_or_nothing` on a concrete frame,
background, sliders at level 6 and an all-ones exposure table; also the
failure direction at an empty background. -/
theorem C2_reflectance_all_or_nothing_witness :
    calculate_reflectance (some fun _ _ => 5) (fun _ => some fun _ _ => 1)
        [6, 6, 6, 6] (fun _ => some 2) (fun _ => 1) =
      some (List.ofFn fun i : Fin 4 => fun y x =>
        ((fun _ _ => (5 : ℚ)) y (i.val * FRAME_W + x) - (fun _ _ => (1 : ℚ)) y x) /
          expMsOf [6, 6, 6, 6] (fun _ => 1) i / refRadOf (fun _ => some 2) i) ∧
    calculate_reflectance (some fun _ _ => 5) (fun _ => none)
        [6, 6, 6, 6] (fun _ => some 2) (fun _ => 1) = none := by
  constructor
  · exact C2_reflectance_all_or_nothing.1 (fun _ _ => 5) (fun _ => some fun _ _ => 1)
      (fun _ => fun _ _ => 1) [6, 6, 6, 6] (fun _ => some 2) (fun _ => 1)
      (fun i => rfl) (by decide) (by decide)
  · exact C2_reflectance_all_or_nothing.2.1 (fun _ _ => 5) (fun _ => none)
      [6, 6, 6, 6] (fun _ => some 2) (fun _ => 1) ⟨0, Or.inl rfl⟩

/-! ## Core_Classifier.load_model (lines 17-149)

Control flow: return False if the file does not exist (32) or is smaller
than 100 bytes (42); then `self.model = joblib.load(filepath)` (66) —
note the assignment goes DIRECTLY into the stored field; a raised
exception leaves the field unchanged and returns False (68-97); then if
the (already stored!) object lacks `predict`, return False (106-110);
otherwise set `model_path` and return True (145-149).

Deserialization is an oracle: `none` models an exception during
`joblib.load`, `some obj` a successfully deserialized object. -/

/-- A deserialized object, abstracted to an identity and whether it
exposes a `predict` capability. -/
structure LoadedObj where
  objId : ℕ
  hasPredict : Bool
deriving DecidableEq

/-- The engine state: stored model and stored path. -/
structure ClassifierState where
  model : Option LoadedObj
  model_path : Option String
deriving DecidableEq

/-- The environment of one `load_model` call. -/
structure LoadEnv where
  fileExists : Bool
  fileSize : ℕ
  deser : Option LoadedObj
deriving DecidableEq

/-- `CoreClassifier.load_model`: returns the new state and the success
flag. -/
def load_model (s : ClassifierState) (filepath : String) (env : LoadEnv) :
    ClassifierState × Bool :=
  if env.fileExists = false then (s, false)
  else if env.fileSize < 100 then (s, false)
  else
    match env.deser with
    | none => (s, false)
    | some obj =>
      let s1 : ClassifierState := { s with model := some obj }
      if obj.hasPredict = false then (s1, false)
      else ({ s1 with model_path := some filepath }, true)

/-- **C3** — The claim states that on every failing `load_model` call the
stored model is left unchanged and an object without `predict` is never
stored.  The code violates this: when deserialization succeeds but the
object lacks `predict`, `self.model` has already been overwritten with
the invalid object before the check, so the call returns False yet the
predict-less object is stored and the previous model is lost.  Concrete
failing input: a previously loaded valid model, and a file that exists,
has 150 bytes, and deserializes to an object without `predict`. -/
theorem C3_predictless_object_stored :
    (load_model ⟨some ⟨1, true⟩, some "old.joblib"⟩ "bad.joblib"
        ⟨true, 150, some ⟨2, false⟩⟩).2 = false ∧
    (load_model ⟨some ⟨1, true⟩, some "old.joblib"⟩ "bad.joblib"
        ⟨true, 150, some ⟨2, false⟩⟩).1.model = some ⟨2, false⟩ ∧
    (load_model ⟨some ⟨1, true⟩, some "old.joblib"⟩ "bad.joblib"
        ⟨true, 150, some ⟨2, false⟩⟩).1.model ≠ some ⟨1, true⟩ := by
  decide

/-- The other three failure modes (missing file, too-small file,
deserialization exception) do leave the state unchanged, isolating the
predict-check path as the one that stores the invalid object. -/
theorem load_model_other_failures_keep_state :
    ∀ (s : ClassifierState) (p : String) (env : LoadEnv),
      (env.fileExists = false ∨ env.fileSize < 100 ∨ env.deser = none) →
      load_model s p env = (s, false) := by
  intro s p env h
  unfold load_model
  rcases h with h | h | h
  · rw [if_pos h]
  · by_cases he : env.fileExists = false
    · rw [if_pos he]
    · rw [if_neg he, if_pos h]
  · by_cases he : env.fileExists = false
    · rw [if_pos he]
    · rw [if_neg he]
      by_cases hs : env.fileSize < 100
      · rw [if_pos hs]
      · rw [if_neg hs, h]

/-- Witness for `load_model_other_failures_keep_state` at a concrete
missing-file call. -/
theorem load_model_other_failures_keep_state_witness :
    load_model ⟨some ⟨1, true⟩, some "old.joblib"⟩ "gone.joblib"
        ⟨false, 0, none⟩ = (⟨some ⟨1, true⟩, some "old.joblib"⟩, false) :=
  load_model_other_failures_keep_state ⟨some ⟨1, true⟩, some "old.joblib"⟩
    "gone.joblib" ⟨false, 0, none⟩ (Or.inl rfl)

/-! ## Core_GeoTransform INI persistence (lines 262-326)

`save_config_ini` writes one section per key in
`['H_11','H_21','H_31','H_41']`; a stored 3×3 matrix is flattened
row-major to a comma-joined string of its 9 floats, an absent matrix is
written as the literal token `None` (`self.homography_matrices` holds
only the target keys, so `H_11` is always written as `None`).
`load_config_ini` reads the keys `['H_21','H_31','H_41']`: a missing
section and a `None` token both load as `None`; otherwise the 9 parsed
floats are reshaped to 3×3.

Python's `str(float)`/`float(str)` round-trip is exact, so the
serialized payload is modelled as the list of 9 rationals itself (the
claim's "within floating-point tolerance" is subsumed by exactness). -/

/-- A 3×3 homography matrix over exact reals (Python floats). -/
def Mat3 : Type := Fin 3 → Fin 3 → ℚ

/-- The `matrix` field of one INI section: the `None` token or the
comma-joined row-major values. -/
inductive MatField
  | noneTok
  | vals (l : List ℚ)

/-- An INI file: sections in order, each with its `matrix` field. -/
def IniFile : Type := List (String × MatField)

/-- The homography store: `self.homography_matrices` has exactly the keys
`H_21`, `H_31`, `H_41` (initialized at lines 20-24). -/
structure GeoState where
  H21 : Option Mat3
  H31 : Option Mat3
  H41 : Option Mat3

/-- `self.homography_matrices.get(key)`: `None` both for a stored `None`
and for a key not in the dict (`H_11`). -/
def getH (st : GeoState) : String → Option Mat3
  | "H_21" => st.H21
  | "H_31" => st.H31
  | "H_41" => st.H41
  | _ => none

/-- Row-major flattening (`H.flatten()`). -/
def flattenMat (H : Mat3) : List ℚ :=
  [H 0 0, H 0 1, H 0 2, H 1 0, H 1 1, H 1 2, H 2 0, H 2 1, H 2 2]

/-- `np.array(values).reshape(3, 3)` on the 9 parsed floats. -/
def reshapeMat (l : List ℚ) : Mat3 := fun r c => l.getD (3 * r.val + c.val) 0

/-- `CoreGeoTransform.save_config_ini`: one section per save key. -/
def save_config_ini (st : GeoState) : IniFile :=
  ["H_11", "H_21", "H_31", "H_41"].map fun key =>
    (key, match getH st key with
          | some H => MatField.vals (flattenMat H)
          | none => MatField.noneTok)

/-- Load one key: missing section ⇒ `None`; `None` token ⇒ `None`;
values ⇒ reshape. -/
def loadKey (f : IniFile) (key : String) : Option Mat3 :=
  match f.lookup key with
  | none => none
  | some MatField.noneTok => none
  | some (MatField.vals l) => some (reshapeMat l)

/-- `CoreGeoTransform.load_config_ini`: reads the three target keys. -/
def load_config_ini (f : IniFile) : GeoState :=
  ⟨loadKey f "H_21", loadKey f "H_31", loadKey f "H_41"⟩

theorem reshapeMat_flattenMat (H : Mat3) : reshapeMat (flattenMat H) = H := by
  funext r c
  fin_cases r <;> fin_cases c <;> rfl

theorem lookup_save (st : GeoState) (key : String)
    (hk : key ∈ (["H_11", "H_21", "H_31", "H_41"] : List String)) :
    (save_config_ini st).lookup key =
      some (match getH st key with
            | some H => MatField.vals (flattenMat H)
            | none => MatField.noneTok) := by
  fin_cases hk <;> rfl

/-- **C4** — Saving the homography set and loading it back reproduces,
for every target key, the same matrix and the same `None` markers
(exactly, which subsumes the claim's floating-point tolerance); and on
load, both a key bound to the `None` token and a key absent from the
file produce "no transform" (`None`) for that band. -/
theorem C4_homography_roundtrip :
    (∀ (st : GeoState) (key : String),
      key ∈ (["H_21", "H_31", "H_41"] : List String) →
      getH (load_config_ini (save_config_ini st)) key = getH st key) ∧
    (∀ (f : IniFile) (key : String),
      key ∈ (["H_21", "H_31", "H_41"] : List String) →
      f.lookup key = none → getH (load_config_ini f) key = none) ∧
    (∀ (f : IniFile) (key : String),
      key ∈ (["H_21", "H_31", "H_41"] : List String) →
      f.lookup key = some MatField.noneTok → getH (load_config_ini f) key = none) := by
  refine ⟨?_, ?_, ?_⟩
  · intro st key hk
    fin_cases hk <;>
    · show loadKey (save_config_ini st) _ = _
      rw [loadKey, lookup_save st _ (by decide)]
      cases h : getH st _
      · simp [h]
      · simp only [h]
        rw [reshapeMat_flattenMat]
  · intro f key hk hnone
    fin_cases hk <;>
    · show loadKey f _ = _
      rw [loadKey, hnone]
  · intro f key hk htok
    fin_cases hk <;>
    · show loadKey f _ = _
      rw [loadKey, htok]

/-- Witness for `C4_homography_roundtrip`: a store with one concrete
matrix and two `None` entries round-trips, and an empty file loads as
all-`None`. -/
theorem C4_homography_roundtrip_witness :
    getH (load_config_ini (save_config_ini
        ⟨some fun r c => (r.val : ℚ) * 3 + c.val, none, none⟩)) "H_21" =
      getH ⟨some fun r c => (r.val : ℚ) * 3 + c.val, none, none⟩ "H_21" ∧
    getH (load_config_ini ([] : IniFile)) "H_31" = none := by
  constructor
  · exact C4_homography_roundtrip.1
      ⟨some fun r c => (r.val : ℚ) * 3 + c.val, none, none⟩ "H_21" (by decide)
  · exact C4_homography_roundtrip.2.1 ([] : IniFile) "H_31" (by decide) rfl

/-! ## Core_GeoTransform.automatic_transformation_estimation (lines 137-209)

Per target band `i ∈ {2,3,4}`: AKAZE keypoints and `knnMatch(k=2)` give,
per candidate, a list of up to 2 nearest matches; Lowe's ratio test
keeps `m` from an exact pair `[m, n]` when
`m.distance < 0.75 * n.distance`; if at least 4 matches survive,
`cv2.findHomography(src, dst, RANSAC, 5.0)` runs and its result — which
may itself be `None` on estimator failure — is recorded; otherwise
`None` is recorded directly.  Each band is processed independently.

Keypoint detection, matching and RANSAC are external (cv2) and are
modelled as data/oracles: the keypoint coordinate maps, the knn output,
and the `ransac` estimator function. -/

/-- One `cv2.DMatch`: Hamming distance and the two keypoint indices. -/
structure DMatch where
  distance : ℚ
  queryIdx : ℕ
  trainIdx : ℕ

/-- Lowe's ratio test (lines 168-173): keep `m` from an exact pair
`[m, n]` when `m.distance < 0.75 * n.distance`. -/
def ratioTest (knn : List (List DMatch)) : List DMatch :=
  knn.filterMap fun mn =>
    match mn with
    | [m, n] => if m.distance < (3 / 4 : ℚ) * n.distance then some m else none
    | _ => none

/-- The data of one target band: its keypoint coordinates, the reference
keypoint coordinates, and the `knnMatch` output. -/
structure BandMatchData where
  kpTarget : ℕ → ℚ × ℚ
  kpRef : ℕ → ℚ × ℚ
  knn : List (List DMatch)

/-- Lines 175-201 for one band: homography estimation only when at least
4 ratio-test survivors exist; the recorded result is the (fallible)
estimator output, else `None`. -/
def bandHomography (ransac : List (ℚ × ℚ) → List (ℚ × ℚ) → Option Mat3)
    (d : BandMatchData) : Option Mat3 :=
  let good := ratioTest d.knn
  if 4 ≤ good.length then
    ransac (good.map fun m => d.kpTarget m.queryIdx)
      (good.map fun m => d.kpRef m.trainIdx)
  else none

/-- `automatic_transformation_estimation`: the three target bands
(`H_21`, `H_31`, `H_41`), each estimated independently. -/
def automatic_transformation_estimation
    (ransac : List (ℚ × ℚ) → List (ℚ × ℚ) → Option Mat3)
    (bands : Fin 3 → BandMatchData) : Fin 3 → Option Mat3 :=
  fun b => bandHomography ransac (bands b)

/-- **C5** — For each target band, a homography is estimated only when at
least 4 ratio-test-accepted matches exist: with fewer than 4 accepted
matches, or when the robust estimator fails, the band's recorded result
is `None`; a returned homography always comes from the estimator run on
the ≥ 4 accepted matches of that band alone; and the result for one band
is a function of that band's data only, so failures elsewhere never
disturb it. -/
theorem C5_homography_floor :
    (∀ (ransac : List (ℚ × ℚ) → List (ℚ × ℚ) → Option Mat3)
       (bands : Fin 3 → BandMatchData) (b : Fin 3),
      (ratioTest (bands b).knn).length < 4 →
      automatic_transformation_estimation ransac bands b = none) ∧
    (∀ (ransac : List (ℚ × ℚ) → List (ℚ × ℚ) → Option Mat3)
       (bands : Fin 3 → BandMatchData) (b : Fin 3),
      ransac ((ratioTest (bands b).knn).map fun m => (bands b).kpTarget m.queryIdx)
        ((ratioTest (bands b).knn).map fun m => (bands b).kpRef m.trainIdx) = none →
      automatic_transformation_estimation ransac bands b = none) ∧
    (∀ (ransac : List (ℚ × ℚ) → List (ℚ × ℚ) → Option Mat3)
       (bands : Fin 3 → BandMatchData) (b : Fin 3) (H : Mat3),
      automatic_transformation_estimation ransac bands b = some H →
      4 ≤ (ratioTest (bands b).knn).length ∧
      ransac ((ratioTest (bands b).knn).map fun m => (bands b).kpTarget m.queryIdx)
        ((ratioTest (bands b).knn).map fun m => (bands b).kpRef m.trainIdx) = some H) ∧
    (∀ (ransac : List (ℚ × ℚ) → List (ℚ × ℚ) → Option Mat3)
       (bands bands' : Fin 3 → BandMatchData) (b : Fin 3),
      bands b = bands' b →
      automatic_transformation_estimation ransac bands b =
        automatic_transformation_estimation ransac bands' b) := by
  refine ⟨?_, ?_, ?_, ?_⟩
  · intro ransac bands b hlt
    unfold automatic_transformation_estimation bandHomography
    rw [if_neg (by omega)]
  · intro ransac bands b hr
    show (if 4 ≤ (ratioTest (bands b).knn).length then
        ransac ((ratioTest (bands b).knn).map fun m => (bands b).kpTarget m.queryIdx)
          ((ratioTest (bands b).knn).map fun m => (bands b).kpRef m.trainIdx)
      else none) = none
    by_cases hlen : 4 ≤ (ratioTest (bands b).knn).length
    · rw [if_pos hlen]
      exact hr
    · rw [if_neg hlen]
  · intro ransac bands b H hsome
    unfold automatic_transformation_estimation bandHomography at hsome
    by_cases hlen : 4 ≤ (ratioTest (bands b).knn).length
    · rw [if_pos hlen] at hsome
      exact ⟨hlen, hsome⟩
    · rw [if_neg hlen] at hsome
      exact absurd hsome (by simp)
  · intro ransac bands bands' b heq
    unfold automatic_transformation_estimation
    rw [heq]

/-- Witness for `C5_homography_floor`: three ratio-test survivors are
below the floor, so the band records `None` (with an estimator that
would otherwise always succeed); and an estimator that fails also
records `None` on 4 survivors. -/
theorem C5_homography_floor_witness :
    automatic_transformation_estimation (fun _ _ => some fun _ _ => 1)
      (fun _ => ⟨fun _ => (0, 0), fun _ => (0, 0),
        [[⟨1, 0, 0⟩, ⟨2, 1, 1⟩], [⟨1, 0, 0⟩, ⟨2, 1, 1⟩], [⟨1, 0, 0⟩, ⟨2, 1, 1⟩]]⟩) 0 = none ∧
    automatic_transformation_estimation (fun _ _ => none)
      (fun _ => ⟨fun _ => (0, 0), fun _ => (0, 0),
        [[⟨1, 0, 0⟩, ⟨2, 1, 1⟩], [⟨1, 0, 0⟩, ⟨2, 1, 1⟩],
         [⟨1, 0, 0⟩, ⟨2, 1, 1⟩], [⟨1, 0, 0⟩, ⟨2, 1, 1⟩]]⟩) 0 = none := by
  constructor
  · refine C5_homography_floor.1 (fun _ _ => some fun _ _ => 1)
      (fun _ => ⟨fun _ => (0, 0), fun _ => (0, 0),
        [[⟨1, 0, 0⟩, ⟨2, 1, 1⟩], [⟨1, 0, 0⟩, ⟨2, 1, 1⟩], [⟨1, 0, 0⟩, ⟨2, 1, 1⟩]]⟩) 0 ?_
    show (ratioTest [[⟨1, 0, 0⟩, ⟨2, 1, 1⟩], [⟨1, 0, 0⟩, ⟨2, 1, 1⟩],
      [⟨1, 0, 0⟩, ⟨2, 1, 1⟩]]).length < 4
    norm_num [ratioTest, List.filterMap]
  · exact C5_homography_floor.2.1 (fun _ _ => none)
      (fun _ => ⟨fun _ => (0, 0), fun _ => (0, 0),
        [[⟨1, 0, 0⟩, ⟨2, 1, 1⟩], [⟨1, 0, 0⟩, ⟨2, 1, 1⟩],
         [⟨1, 0, 0⟩, ⟨2, 1, 1⟩], [⟨1, 0, 0⟩, ⟨2, 1, 1⟩]]⟩) 0 rfl

/-! ## Core_ReferenceRadianceEstimation.estimate_reference_radiance
(lines 60-175)

Per band `i` with a loaded reference tile: the ROI is the centered
100×100 window clamped to the image bounds
(`x1 = max(0, w/2 - 50)`, `x2 = min(w, w/2 + 50)`, same for y);
`mean_val` is the ROI mean (0.0 on an empty ROI); the background value is
the parsed dark-noise entry (parse failure 0.0); the exposure ms is
`token/100.0` unless the token is exactly 0, in which case 1.0; the
radiance is `(mean_val - bg_val) / exp_ms`.  Bands without a tile are
skipped (`continue`).  The filename parsing upstream of the tokens is
not part of this claim; the four integer tokens are taken as inputs. -/

/-- A grayscale image with its dimensions. -/
structure Image where
  h : ℕ
  w : ℕ
  px : ℕ → ℕ → ℚ

/-- The clamped centered ROI bounds (x1, y1, x2, y2) of lines 122-130
(`win_size = 100`; Python `max(0, c - 50)` is ℕ truncated subtraction). -/
def roiBounds (h w : ℕ) : ℕ × ℕ × ℕ × ℕ :=
  (w / 2 - 50, h / 2 - 50, min w (w / 2 + 50), min h (h / 2 + 50))

/-- Mean over the ROI (lines 132-137); 0.0 when the ROI is empty. -/
def roiMean (t : Image) : ℚ :=
  let b := roiBounds t.h t.w
  let x1 := b.1
  let y1 := b.2.1
  let x2 := b.2.2.1
  let y2 := b.2.2.2
  let n := (y2 - y1) * (x2 - x1)
  if n = 0 then 0
  else (((List.range (y2 - y1)).map fun dy =>
          ((List.range (x2 - x1)).map fun dx => t.px (y1 + dy) (x1 + dx)).sum).sum) / n

/-- `estimate_reference_radiance` from the parsed exposure tokens down:
per band, `none` when no reference tile is loaded, else the computed
radiance written to the entry field. -/
def estimate_reference_radiance (expo100 : Fin 4 → ℤ) (bg : Fin 4 → ℚ)
    (tiles : Fin 4 → Option Image) : Fin 4 → Option ℚ :=
  fun i =>
    match tiles i with
    | none => none
    | some t =>
      let expMs : ℚ := if expo100 i ≠ 0 then (expo100 i : ℚ) / 100 else 1
      some ((roiMean t - bg i) / expMs)

/-- **C8** — For each band with a loaded reference tile, the estimated
reference radiance equals
`(mean of the centered clamped 100×100 region − dark-noise) / (token/100)`,
with divisor 1 when the token is exactly 0; and on images at least
100×100 the region really is the full 100×100 centered window. -/
theorem C8_reference_radiance_formula :
    (∀ (expo100 : Fin 4 → ℤ) (bg : Fin 4 → ℚ) (tiles : Fin 4 → Option Image)
       (i : Fin 4) (t : Image), tiles i = some t → expo100 i ≠ 0 →
      estimate_reference_radiance expo100 bg tiles i =
        some ((roiMean t - bg i) / ((expo100 i : ℚ) / 100))) ∧
    (∀ (expo100 : Fin 4 → ℤ) (bg : Fin 4 → ℚ) (tiles : Fin 4 → Option Image)
       (i : Fin 4) (t : Image), tiles i = some t → expo100 i = 0 →
      estimate_reference_radiance expo100 bg tiles i =
        some ((roiMean t - bg i) / 1)) ∧
    (∀ (expo100 : Fin 4 → ℤ) (bg : Fin 4 → ℚ) (tiles : Fin 4 → Option Image)
       (i : Fin 4), tiles i = none → estimate_reference_radiance expo100 bg tiles i = none) ∧
    (∀ t : Image, 100 ≤ t.h → 100 ≤ t.w →
      roiMean t = (((List.range 100).map fun dy =>
        ((List.range 100).map fun dx =>
          t.px (t.h / 2 - 50 + dy) (t.w / 2 - 50 + dx)).sum).sum) / 10000) := by
  refine ⟨?_, ?_, ?_, ?_⟩
  · intro expo100 bg tiles i t ht he
    unfold estimate_reference_radiance
    rw [ht]
    simp [he]
  · intro expo100 bg tiles i t ht he
    unfold estimate_reference_radiance
    rw [ht]
    simp [he]
  · intro expo100 bg tiles i ht
    unfold estimate_reference_radiance
    rw [ht]
  · intro t hh hw
    have hy : min t.h (t.h / 2 + 50) - (t.h / 2 - 50) = 100 := by omega
    have hx : min t.w (t.w / 2 + 50) - (t.w / 2 - 50) = 100 := by omega
    show (let b := roiBounds t.h t.w; let x1 := b.1; let y1 := b.2.1
          let x2 := b.2.2.1; let y2 := b.2.2.2
          let n := (y2 - y1) * (x2 - x1)
          if n = 0 then 0
          else (((List.range (y2 - y1)).map fun dy =>
            ((List.range (x2 - x1)).map fun dx => t.px (y1 + dy) (x1 + dx)).sum).sum) / n) = _
    simp only [roiBounds, hy, hx]
    norm_num

/-- Witness for `C8_reference_radiance_formula` on a tiny constant 2×2
tile (ROI clamps to the whole image), token 200, dark noise 1; plus the
zero-token and missing-tile cases. -/
theorem C8_reference_radiance_formula_witness :
    estimate_reference_radiance (fun _ => 200) (fun _ => 1)
        (fun _ => some ⟨2, 2, fun _ _ => 3⟩) 0 =
      some ((roiMean ⟨2, 2, fun _ _ => 3⟩ - 1) / ((200 : ℚ) / 100)) ∧
    estimate_reference_radiance (fun _ => 0) (fun _ => 1)
        (fun _ => some ⟨2, 2, fun _ _ => 3⟩) 0 =
      some ((roiMean ⟨2, 2, fun _ _ => 3⟩ - 1) / 1) ∧
    estimate_reference_radiance (fun _ => 200) (fun _ => 1) (fun _ => none) 0 = none := by
  refine ⟨?_, ?_, ?_⟩
  · exact C8_reference_radiance_formula.1 (fun _ => 200) (fun _ => 1)
      (fun _ => some ⟨2, 2, fun _ _ => 3⟩) 0 ⟨2, 2, fun _ _ => 3⟩ rfl (by decide)
  · exact C8_reference_radiance_formula.2.1 (fun _ => 0) (fun _ => 1)
      (fun _ => some ⟨2, 2, fun _ _ => 3⟩) 0 ⟨2, 2, fun _ _ => 3⟩ rfl rfl
  · exact C8_reference_radiance_formula.2.2.1 (fun _ => 200) (fun _ => 1)
      (fun _ => none) 0 rfl

/-! ## Core_CameraView.ZMQReceiverThread.run (lines 105-119)

Each received payload is decoded with `cv2.imdecode` (an oracle: `none`
models a failed decode returning None); a frame is emitted via
`frame_received` only when the decode succeeded and the shape is exactly
`(FRAME_H, FULL_W) = (480, 2560)`; every other payload is dropped. -/

/-- Frame height constant (line 9). -/
def FRAME_H : ℕ := 480

/-- Full concatenated width `FRAME_W * 4` (line 11). -/
def FULL_W : ℕ := FRAME_W * 4

/-- One loop iteration of `ZMQReceiverThread.run` on a received payload:
the emitted frame, if any. -/
def receiveStep (decode : List ℕ → Option Image) (payload : List ℕ) : Option Image :=
  match decode payload with
  | none => none
  | some img => if img.h = FRAME_H ∧ img.w = FULL_W then some img else none

/-- The frames emitted over a run of the thread on a payload sequence. -/
def receiverRun (decode : List ℕ → Option Image) (payloads : List (List ℕ)) :
    List Image :=
  payloads.filterMap (receiveStep decode)

/-- **C9** — The ingestion thread never hands a mis-shaped frame onward:
every emitted frame has shape exactly (480, 2560) and is the successful
decode of some received payload; a payload that fails to decode, or
decodes to any other shape, contributes no emission. -/
theorem C9_frame_shape_gate :
    (∀ (decode : List ℕ → Option Image) (payloads : List (List ℕ)) (img : Image),
      img ∈ receiverRun decode payloads →
      img.h = 480 ∧ img.w = 2560 ∧ ∃ p ∈ payloads, decode p = some img) ∧
    (∀ (decode : List ℕ → Option Image) (p : List ℕ),
      decode p = none → receiveStep decode p = none) ∧
    (∀ (decode : List ℕ → Option Image) (p : List ℕ) (img : Image),
      decode p = some img → ¬(img.h = 480 ∧ img.w = 2560) →
      receiveStep decode p = none) := by
  refine ⟨?_, ?_, ?_⟩
  · intro decode payloads img hmem
    obtain ⟨p, hp, hstep⟩ := List.mem_filterMap.mp hmem
    unfold receiveStep at hstep
    cases hdec : decode p with
    | none => rw [hdec] at hstep; cases hstep
    | some img0 =>
      rw [hdec] at hstep
      have hstep' : (if img0.h = FRAME_H ∧ img0.w = FULL_W then some img0 else none) =
          some img := hstep
      by_cases hsh : img0.h = FRAME_H ∧ img0.w = FULL_W
      · rw [if_pos hsh] at hstep'
        cases hstep'
        refine ⟨hsh.1, ?_, p, hp, hdec⟩
        have : FULL_W = 2560 := rfl
        exact this ▸ hsh.2
      · rw [if_neg hsh] at hstep'
        cases hstep'
  · intro decode p hdec
    unfold receiveStep
    rw [hdec]
  · intro decode p img hdec hsh
    unfold receiveStep
    rw [hdec]
    show (if img.h = FRAME_H ∧ img.w = FULL_W then some img else none) = none
    rw [if_neg ?_]
    intro h
    exact hsh ⟨h.1, h.2⟩
/-- Witness for `C9_frame_shape_gate`: a concrete run with one good
payload, one undecodable payload and one mis-shaped payload emits only
the good 480×2560 frame; the membership hypothesis is discharged on it. -/
theorem C9_frame_shape_gate_witness :
    ((⟨480, 2560, fun _ _ => 0⟩ : Image).h = 480 ∧
      (⟨480, 2560, fun _ _ => 0⟩ : Image).w = 2560 ∧
      ∃ p ∈ [[0], [1], [2]],
        (fun p : List ℕ => if p = [0] then some (⟨480, 2560, fun _ _ => 0⟩ : Image)
          else if p = [2] then some ⟨100, 100, fun _ _ => 0⟩ else none) p =
          some (⟨480, 2560, fun _ _ => 0⟩ : Image)) ∧
    receiveStep (fun p : List ℕ => if p = [0] then some (⟨480, 2560, fun _ _ => 0⟩ : Image)
      else if p = [2] then some ⟨100, 100, fun _ _ => 0⟩ else none) [1] = none := by
  constructor
  · refine C9_frame_shape_gate.1
      (fun p : List ℕ => if p = [0] then some (⟨480, 2560, fun _ _ => 0⟩ : Image)
        else if p = [2] then some ⟨100, 100, fun _ _ => 0⟩ else none)
      [[0], [1], [2]] ⟨480, 2560, fun _ _ => 0⟩ ?_
    show (⟨480, 2560, fun _ _ => 0⟩ : Image) ∈ _
    exact List.mem_filterMap.mpr ⟨[0], by simp, rfl⟩
  · exact C9_frame_shape_gate.2.1
      (fun p : List ℕ => if p = [0] then some (⟨480, 2560, fun _ _ => 0⟩ : Image)
        else if p = [2] then some ⟨100, 100, fun _ _ => 0⟩ else none) [1] rfl

end RT4BC
